import Mathlib

/-
  Shallow embedding of src/vs/workbench/services/workspace/node/workspaceEditingService.ts
  (class WorkspaceEditingService).

  The service is embedded as pure functions over an explicit environment record
  (WorkspaceContext) that captures everything the service reads from its injected
  collaborators, together with an explicit trace of the calls it makes to the
  collaborators that perform effects (JSON writes, the choice prompt, window opening).
  Promise resolution and rejection are modelled by PromiseResult; a synchronous
  JavaScript TypeError (for example, spreading a null array) is modelled by the
  fault result.
-/

/-- Modelled from the spec: a Root is a URI-like resource identifier with a scheme and a
filesystem path (the URI class of vs/base/common/uri is not under src/; the spec gives a
Root the attributes scheme and path). -/
structure Root where
  scheme : String
  path : String
deriving DecidableEq

/-- Modelled from the spec: the percent-encoding that URI.toString applies when encoding is
not skipped (the URI class is not under src/). The spec says canonicalization decodes
percent-encoding, so the encoded and decoded forms differ exactly on characters subject to
percent-encoding; the model encodes the space character as %20 and the percent sign as %25
and leaves every other character unchanged. -/
def percentEncodeChar (c : Char) : String :=
  if c.toNat = 32 then "%20" else if c.toNat = 37 then "%25" else String.singleton c

/-- Modelled from the spec: percent-encoding of a whole path, character by character. -/
def percentEncode (s : String) : String :=
  String.join (s.toList.map percentEncodeChar)

/-- Modelled from the spec: URI.toString with skipEncoding set to true, the canonical string
form in raw decoded form. Line 92 of the source calls root.toString(true) with the comment
that encoding is skipped. -/
def toStringSkipEncoding (r : Root) : String :=
  r.scheme ++ "://" ++ r.path

/-- Modelled from the spec: URI.toString with its default argument, the string form with
percent-encoding applied. Line 58 of the source calls root.toString() with no argument. -/
def toStringEncoded (r : Root) : String :=
  r.scheme ++ "://" ++ percentEncode r.path

/-- Modelled from the spec: URI.fsPath, the filesystem path attribute of the root, without
the scheme prefix that the canonical string form carries. Line 65 of the source reads
root.fsPath for every current root. -/
def fsPath (r : Root) : String :=
  r.path

/-- Modelled from the spec: the distinct helper of vs/base/common/arrays (not under src/):
deduplication that keeps the first occurrence and preserves the order of first
occurrences. -/
def distinct : List String → List String
  | [] => []
  | x :: xs => x :: (distinct xs).filter (fun y => decide (y ≠ x))

/-- Modelled from the spec: the equals helper of vs/base/common/arrays (not under src/):
element-wise, order-sensitive comparison of two lists. -/
def equalsArrays (a b : List String) : Bool :=
  a == b

/-- A JSON primitive value appearing as a field of a written object. -/
inductive JsonPrim where
  | str : String → JsonPrim
  | strList : List String → JsonPrim
deriving DecidableEq

/-- A JSON value passed to the JSON editing collaborator: either a plain array of strings
(the folders field replacement) or an object given by its ordered field list (the initial
whole-document payload). -/
inductive JsonValue where
  | arr : List String → JsonValue
  | obj : List (String × JsonPrim) → JsonValue
deriving DecidableEq

/-- Severity level passed to the choice prompt; the source only ever uses Severity.Info. -/
inductive Severity where
  | info
deriving DecidableEq

/-- One call to an effectful collaborator:
write target key value createIfMissing models jsonEditingService.write,
choose models choiceService.choose, openWindow models windowsService.openWindow. -/
inductive Event where
  | write : String → String → JsonValue → Bool → Event
  | choose : Severity → String → List String → Nat → Event
  | openWindow : List String → Event
deriving DecidableEq

/-- How the returned promise of an operation settles. fault models a synchronous
JavaScript TypeError thrown before any promise is produced. -/
inductive PromiseResult where
  | resolved
  | rejected
  | fault
deriving DecidableEq

/-- The observable outcome of one operation: the ordered trace of collaborator calls and
how the operation settles. -/
structure Outcome where
  events : List Event
  result : PromiseResult
deriving DecidableEq

/-- The environment a single operation runs against: everything the service reads from its
injected collaborators, plus the outcome each effectful collaborator would produce.
hasWorkspace and appQuality feed the supported gate; roots and configuration are the
current workspace of the context service; appSettingsHome comes from the environment
service; freshId is the value uuid.generateUuid returns during this operation; promptOk,
writeOk and openOk say whether the choice prompt, the JSON write and the window opening
resolve or reject. -/
structure WorkspaceContext where
  hasWorkspace : Bool
  appQuality : String
  roots : List Root
  configuration : Option String
  appSettingsHome : String
  freshId : String
  promptOk : Bool
  writeOk : Bool
  openOk : Bool
deriving DecidableEq

/-- Lines 33 to 40 of the source: supported() returns false when the context already has a
workspace, otherwise it returns whether the application quality is not stable. -/
def supported (ctx : WorkspaceContext) : Bool :=
  if ctx.hasWorkspace then false
  else ctx.appQuality != "stable"

/-- Lines 43 and 53 of the source test the truthiness of the method reference
this.supported without invoking it; a function object is always truthy in JavaScript, so
the guard condition there is always false and the early return is dead code. -/
def supportedRefIsTruthy : Bool := true

/-- Lines 86 to 94 of the source: a null list validates to the empty list, otherwise map
every root to its skip-encoding string form and drop duplicates. -/
def validateRoots : Option (List Root) → List String
  | none => []
  | some roots => distinct (roots.map (fun root => toStringSkipEncoding root))

/-- The message text passed to the choice prompt at line 97 of the source. -/
def promptMessage : String :=
  "This action will create a new workspace. Would you like to copy settings from current workspace?"

/-- Modelled from the spec: node path.join of the settings home directory with a file
name (the path module is not under src/). -/
def pathJoin (dir file : String) : String :=
  dir ++ "/" ++ file

/-- Lines 102 to 106 of the source: generate an identifier, derive the new configuration
path from the settings home, write the whole document with the empty key and the payload
object carrying the fields ID and folders, and on success return the new configuration
path. -/
def _doCreateWorkspace (ctx : WorkspaceContext) (folders : List String) :
    Outcome × Option String :=
  let ID := ctx.freshId
  let newConfiguration := pathJoin ctx.appSettingsHome (ID ++ ".vscode")
  let ev := Event.write newConfiguration ""
    (JsonValue.obj [("ID", JsonPrim.str ID), ("folders", JsonPrim.strList folders)]) true
  if ctx.writeOk then (⟨[ev], PromiseResult.resolved⟩, some newConfiguration)
  else (⟨[ev], PromiseResult.rejected⟩, none)

/-- Lines 96 to 100 of the source: ask the choice prompt, then (whatever option was
chosen) create the workspace file, then open a window on the new configuration. A
rejection at any step stops the chain there and rejects the whole operation. -/
def createWorkspace (ctx : WorkspaceContext) (newRoots : List String) : Outcome :=
  let promptEvent := Event.choose Severity.info promptMessage ["Yes", "No"] 1
  if ctx.promptOk then
    match _doCreateWorkspace ctx newRoots with
    | (created, some newConfiguration) =>
        ⟨promptEvent :: (created.events ++ [Event.openWindow [newConfiguration]]),
         if ctx.openOk then PromiseResult.resolved else PromiseResult.rejected⟩
    | (created, none) =>
        ⟨promptEvent :: created.events, PromiseResult.rejected⟩
  else
    ⟨[promptEvent], PromiseResult.rejected⟩

/-- Lines 63 to 84 of the source: compare the fsPath forms of the current roots with the
validated new roots; when equal, resolve with no action; when different and the new set is
non-empty, either write the folders field of the existing configuration or create a new
workspace; when different and the new set is empty, do nothing and resolve. -/
def doSetRoots (ctx : WorkspaceContext) (newRoots : List Root) : Outcome :=
  let currentWorkspaceRoots := ctx.roots.map (fun root => fsPath root)
  let newWorkspaceRoots := validateRoots (some newRoots)
  if equalsArrays currentWorkspaceRoots newWorkspaceRoots then
    ⟨[], PromiseResult.resolved⟩
  else if newWorkspaceRoots.length ≠ 0 then
    match ctx.configuration with
    | none => createWorkspace ctx newWorkspaceRoots
    | some configuration =>
        ⟨[Event.write configuration "folders" (JsonValue.arr newWorkspaceRoots) true],
         if ctx.writeOk then PromiseResult.resolved else PromiseResult.rejected⟩
  else
    ⟨[], PromiseResult.resolved⟩

/-- Lines 42 to 50 of the source. The rootsToAdd argument is an Option to express the null
case: spreading a null array at line 49 throws a TypeError, modelled as a fault before any
collaborator call. The dead guard on the truthiness of the method reference is kept as in
the source. -/
def addRoots (ctx : WorkspaceContext) (rootsToAdd : Option (List Root)) : Outcome :=
  if supportedRefIsTruthy = false then
    ⟨[], PromiseResult.resolved⟩
  else
    match rootsToAdd with
    | none => ⟨[], PromiseResult.fault⟩
    | some rootsToAdd => doSetRoots ctx (ctx.roots ++ rootsToAdd)

/-- Lines 52 to 61 of the source. Calling map on a null rootsToRemove at line 58 throws a
TypeError, modelled as a fault. Removal matching maps both sides through the encoded
string form (toString with its default argument). -/
def removeRoots (ctx : WorkspaceContext) (rootsToRemove : Option (List Root)) : Outcome :=
  if supportedRefIsTruthy = false then
    ⟨[], PromiseResult.resolved⟩
  else
    match rootsToRemove with
    | none => ⟨[], PromiseResult.fault⟩
    | some rootsToRemove =>
        let rootsToRemoveRaw := rootsToRemove.map (fun root => toStringEncoded root)
        doSetRoots ctx
          (ctx.roots.filter (fun root => !(rootsToRemoveRaw.contains (toStringEncoded root))))

/-- Whether an event is a call to the choice prompt. -/
def isChoose : Event → Bool
  | Event.choose _ _ _ _ => true
  | _ => false

/-- Whether an event is a whole-document write, that is a JSON write with the empty key:
exactly the write that materializes a new workspace configuration file. -/
def isWholeFileWrite : Event → Bool
  | Event.write _ k _ _ => k == ""
  | _ => false

/-- The field names of the object payload of a write event, in order; empty for writes of
plain arrays and for non-write events. -/
def writtenKeys : Event → List String
  | Event.write _ _ (JsonValue.obj fields) _ => fields.map Prod.fst
  | _ => []

/-- One step of the first-occurrence deduplication the spec describes: keep the
accumulator if the form was already seen, otherwise append it. -/
def dedupStep (acc : List String) (x : String) : List String :=
  if x ∈ acc then acc else acc ++ [x]

/-- The deduplication described by the spec, written independently of the source as a left
fold with an accumulator of already-seen forms: duplicates collapse to the first
occurrence and first-occurrence order is preserved. -/
def specDedup (l : List String) : List String :=
  l.foldl dedupStep []

/-- Concrete environment: current roots /a and /b, an existing configuration file /ws,
all collaborators succeeding. -/
def ctxTwoRoots : WorkspaceContext :=
  ⟨false, "insider", [⟨"file", "/a"⟩, ⟨"file", "/b"⟩], some "/ws", "/home/user", "u1",
   true, true, true⟩

/-- Concrete environment with the feature gate disabled for both reasons the spec names:
a workspace is already active and the quality is stable; no roots, no configuration. -/
def ctxGateAdd : WorkspaceContext :=
  ⟨true, "stable", [], none, "/home/user", "u1", true, true, true⟩

/-- Concrete environment with the feature gate disabled, two roots and an existing
configuration, for exercising removeRoots. -/
def ctxGateRemove : WorkspaceContext :=
  ⟨true, "stable", [⟨"file", "/a"⟩, ⟨"file", "/b"⟩], some "/ws", "/home/user", "u1",
   true, true, true⟩

/-- Concrete environment whose single root has a path attribute that textually equals the
canonical string form of the root with path /b; no configuration is associated. -/
def ctxOddRoot : WorkspaceContext :=
  ⟨false, "insider", [⟨"file", "file:///b"⟩], none, "/home/user", "u1", true, true, true⟩

/-- Concrete environment with one root /a and an existing configuration. -/
def ctxOneRoot : WorkspaceContext :=
  ⟨false, "insider", [⟨"file", "/a"⟩], some "/ws", "/home/user", "u1", true, true, true⟩

/-- Concrete environment: current roots /a, /b and /c, an existing configuration /ws. -/
def ctxThreeRoots : WorkspaceContext :=
  ⟨false, "insider", [⟨"file", "/a"⟩, ⟨"file", "/b"⟩, ⟨"file", "/c"⟩], some "/ws",
   "/home/user", "u1", true, true, true⟩

/-- Concrete environment in which the choice prompt rejects. -/
def ctxPromptFails : WorkspaceContext :=
  ⟨false, "insider", [], none, "/home/user", "u1", false, true, true⟩

/-- Concrete environment in which the prompt resolves but the JSON write rejects. -/
def ctxWriteFails : WorkspaceContext :=
  ⟨false, "insider", [], none, "/home/user", "u1", true, false, true⟩

/-- Concrete environment with no roots, no configuration, all collaborators succeeding. -/
def ctxEmpty : WorkspaceContext :=
  ⟨false, "insider", [], none, "/home/user", "u1", true, true, true⟩

theorem distinct_eq_nil {l : List String} : distinct l = [] ↔ l = [] := by
  cases l with
  | nil => simp [distinct]
  | cons x xs => simp [distinct]

theorem equalsArrays_eq_true {a b : List String} : equalsArrays a b = true ↔ a = b := by
  simp [equalsArrays]

theorem distinct_sublist (l : List String) : (distinct l).Sublist l := by
  induction l with
  | nil => simp [distinct]
  | cons x xs ih => exact List.Sublist.cons₂ x ((List.filter_sublist _).trans ih)

theorem mem_distinct {a : String} {l : List String} : a ∈ distinct l ↔ a ∈ l := by
  induction l with
  | nil => simp [distinct]
  | cons x xs ih =>
      simp only [distinct, List.mem_cons, List.mem_filter, decide_eq_true_eq, ih]
      constructor
      · rintro (h | ⟨h, _⟩)
        · exact Or.inl h
        · exact Or.inr h
      · rintro (h | h)
        · exact Or.inl h
        · by_cases hx : a = x
          · exact Or.inl hx
          · exact Or.inr ⟨h, hx⟩

theorem distinct_nodup (l : List String) : (distinct l).Nodup := by
  induction l with
  | nil => simp [distinct]
  | cons x xs ih =>
      simp only [distinct, List.nodup_cons]
      refine ⟨?_, ih.filter _⟩
      intro hmem
      have h := (List.mem_filter.mp hmem).2
      simp at h

/-- C1: the claim says that calling addRoots with an empty list while the current roots
are /a and /b results in no write. In the source, doSetRoots compares the fsPath forms of
the current roots with the skip-encoding URI string forms of the validated desired roots;
these forms never coincide for file roots, so the no-change check fails and the folders
field is rewritten even though nothing changed. This theorem evaluates the embedded code
at the failing input: the operation issues exactly one write of the folders field. -/
theorem addRoots_empty_add_still_writes :
    (ctxTwoRoots.roots.map (fun root => fsPath root)) = ["/a", "/b"] ∧
    validateRoots (some (ctxTwoRoots.roots ++ [])) = ["file:///a", "file:///b"] ∧
    (addRoots ctxTwoRoots (some [])).events =
      [Event.write "/ws" "folders" (JsonValue.arr ["file:///a", "file:///b"]) true] := by
  refine ⟨rfl, rfl, by decide⟩

/-- C2: the claim says that with the feature gate disabled both entry points return
success immediately with zero collaborator calls. In the source the guard tests the
truthiness of the method reference this.supported instead of invoking it, so the early
return is dead: with the gate disabled (workspace active and stable quality) addRoots
still prompts, writes and opens a window, and removeRoots still writes. -/
theorem gate_disabled_still_reaches_collaborators :
    supported ctxGateAdd = false ∧
    (addRoots ctxGateAdd (some [⟨"file", "/a"⟩])).events =
      [Event.choose Severity.info promptMessage ["Yes", "No"] 1,
       Event.write "/home/user/u1.vscode" ""
         (JsonValue.obj [("ID", JsonPrim.str "u1"),
           ("folders", JsonPrim.strList ["file:///a"])]) true,
       Event.openWindow ["/home/user/u1.vscode"]] ∧
    supported ctxGateRemove = false ∧
    (removeRoots ctxGateRemove (some [⟨"file", "/b"⟩])).events =
      [Event.write "/ws" "folders" (JsonValue.arr ["file:///a"]) true] := by
  refine ⟨rfl, by decide, rfl, by decide⟩

/-- C3: addRoots computes the desired set as the current roots concatenated with
rootsToAdd and deduplicated by validateRoots; when a configuration exists and the set
changed, the JSON writer is invoked once, with a full replacement of the folders field
equal to that desired set. -/
theorem addRoots_concat_validate_write (ctx : WorkspaceContext) (rootsToAdd : List Root)
    (cfg : String) (hcfg : ctx.configuration = some cfg)
    (hchanged : ctx.roots.map fsPath ≠ validateRoots (some (ctx.roots ++ rootsToAdd))) :
    (addRoots ctx (some rootsToAdd)).events =
      [Event.write cfg "folders"
        (JsonValue.arr (validateRoots (some (ctx.roots ++ rootsToAdd)))) true] := by
  have hne : validateRoots (some (ctx.roots ++ rootsToAdd)) ≠ [] := by
    intro h
    have hmap := distinct_eq_nil.mp (by simpa [validateRoots] using h)
    rcases List.append_eq_nil.mp hmap with ⟨h1, h2⟩
    have hnil : ctx.roots = [] := List.map_eq_nil_iff.mp h1
    apply hchanged
    rw [hnil] at h ⊢
    simpa using h.symm
  have heq : ¬ (equalsArrays (ctx.roots.map (fun root => fsPath root))
      (validateRoots (some (ctx.roots ++ rootsToAdd))) = true) := by
    intro hb
    exact hchanged (equalsArrays_eq_true.mp hb)
  simp only [addRoots, supportedRefIsTruthy, doSetRoots]
  rw [if_neg (by decide)]
  rw [if_neg heq]
  rw [if_pos (fun h0 => hne (List.length_eq_zero.mp h0))]
  rw [hcfg]

/-- C3 witness: current roots /a and /b with configuration /ws; adding /c writes the
folders field with the three canonical forms in order. -/
theorem addRoots_concat_validate_write_witness :
    (addRoots ctxTwoRoots (some [⟨"file", "/c"⟩])).events =
      [Event.write "/ws" "folders"
        (JsonValue.arr (validateRoots (some (ctxTwoRoots.roots ++ [⟨"file", "/c"⟩])))) true] :=
  addRoots_concat_validate_write ctxTwoRoots [⟨"file", "/c"⟩] "/ws" rfl (by decide)

/-- C9: when the validated desired set is empty but differs from the current root paths,
the reconciliation takes no action at all: no collaborator call happens and the operation
resolves successfully. -/
theorem doSetRoots_empty_desired_noop (ctx : WorkspaceContext) (newRoots : List Root)
    (hempty : validateRoots (some newRoots) = [])
    (hdiff : ctx.roots.map fsPath ≠ []) :
    doSetRoots ctx newRoots = ⟨[], PromiseResult.resolved⟩ := by
  have heq : ¬ (equalsArrays (ctx.roots.map (fun root => fsPath root))
      (validateRoots (some newRoots)) = true) := by
    intro hb
    exact hdiff (by simpa [hempty] using equalsArrays_eq_true.mp hb)
  simp only [doSetRoots]
  rw [if_neg heq]
  rw [if_neg (by simp [hempty])]

/-- C9 witness: one current root, desired set empty: the reconciliation resolves with no
events. -/
theorem doSetRoots_empty_desired_noop_witness :
    doSetRoots ctxOneRoot [] = ⟨[], PromiseResult.resolved⟩ :=
  doSetRoots_empty_desired_noop ctxOneRoot [] rfl (by decide)

/-- C7: in the create-new-workspace flow, a rejected choice prompt stops the chain with
only the prompt call made, so no configuration file is created, no window is opened and
the operation rejects; and when the prompt resolves but the materializing write rejects,
the trace is exactly the prompt call followed by the whole-document write, so the
window-open step does not run and the operation rejects. -/
theorem createWorkspace_failure_paths (ctx : WorkspaceContext) (newRoots : List String) :
    (ctx.promptOk = false →
      createWorkspace ctx newRoots =
        ⟨[Event.choose Severity.info promptMessage ["Yes", "No"] 1],
         PromiseResult.rejected⟩) ∧
    (ctx.promptOk = true → ctx.writeOk = false →
      createWorkspace ctx newRoots =
        ⟨[Event.choose Severity.info promptMessage ["Yes", "No"] 1,
          Event.write (pathJoin ctx.appSettingsHome (ctx.freshId ++ ".vscode")) ""
            (JsonValue.obj [("ID", JsonPrim.str ctx.freshId),
              ("folders", JsonPrim.strList newRoots)]) true],
         PromiseResult.rejected⟩) := by
  constructor
  · intro hp
    simp [createWorkspace, hp]
  · intro hp hw
    simp [createWorkspace, _doCreateWorkspace, hp, hw]

/-- C7 witness: both failure scenarios at concrete environments. -/
theorem createWorkspace_failure_paths_witness :
    createWorkspace ctxPromptFails ["file:///a"] =
      ⟨[Event.choose Severity.info promptMessage ["Yes", "No"] 1],
       PromiseResult.rejected⟩ ∧
    createWorkspace ctxWriteFails ["file:///a"] =
      ⟨[Event.choose Severity.info promptMessage ["Yes", "No"] 1,
        Event.write (pathJoin ctxWriteFails.appSettingsHome (ctxWriteFails.freshId ++ ".vscode")) ""
          (JsonValue.obj [("ID", JsonPrim.str ctxWriteFails.freshId),
            ("folders", JsonPrim.strList ["file:///a"])]) true],
       PromiseResult.rejected⟩ :=
  ⟨(createWorkspace_failure_paths ctxPromptFails ["file:///a"]).1 rfl,
   (createWorkspace_failure_paths ctxWriteFails ["file:///a"]).2 rfl rfl⟩

/-- C10: a null rootsToAdd makes addRoots throw (the null is spread into an array) and a
null rootsToRemove makes removeRoots throw (map is called on null); neither is treated as
an empty sequence or a successful no-op, while validateRoots maps a null input to the
empty sequence. -/
theorem null_roots_fault_not_noop (ctx : WorkspaceContext) :
    addRoots ctx none = ⟨[], PromiseResult.fault⟩ ∧
    removeRoots ctx none = ⟨[], PromiseResult.fault⟩ ∧
    validateRoots none = [] := by
  refine ⟨?_, ?_, rfl⟩
  · simp [addRoots, supportedRefIsTruthy]
  · simp [removeRoots, supportedRefIsTruthy]

theorem distinct_filter (p : String → Bool) (l : List String) :
    distinct (l.filter p) = (distinct l).filter p := by
  induction l with
  | nil => rfl
  | cons x xs ih =>
      by_cases hp : p x = true
      · rw [List.filter_cons_of_pos hp]
        simp only [distinct]
        rw [List.filter_cons_of_pos hp, ih, List.filter_filter, List.filter_filter]
        congr 1
        exact List.filter_congr (fun a _ => Bool.and_comm _ _)
      · rw [List.filter_cons_of_neg hp]
        simp only [distinct]
        rw [List.filter_cons_of_neg hp, ih, List.filter_filter]
        refine (List.filter_congr (fun a _ => ?_)).symm
        by_cases hpa : p a = true
        · have hax : a ≠ x := fun hax => hp (hax ▸ hpa)
          simp [hpa, hax]
        · simp [Bool.eq_false_iff.mpr hpa]

theorem foldl_dedupStep (l : List String) : ∀ acc : List String,
    l.foldl dedupStep acc = acc ++ distinct (l.filter (fun x => decide (x ∉ acc))) := by
  induction l with
  | nil => intro acc; simp [distinct]
  | cons x xs ih =>
      intro acc
      rw [List.foldl_cons]
      by_cases hx : x ∈ acc
      · rw [show dedupStep acc x = acc from if_pos hx, ih]
        congr 2
        rw [List.filter_cons_of_neg (by simp [hx])]
      · rw [show dedupStep acc x = acc ++ [x] from if_neg hx, ih]
        rw [List.filter_cons_of_pos (by simp [hx])]
        simp only [distinct]
        rw [List.append_assoc, List.singleton_append]
        congr 2
        rw [← distinct_filter, List.filter_filter]
        congr 1
        refine List.filter_congr (fun a _ => ?_)
        by_cases hax : a = x
        · simp [hax]
        · by_cases ha : a ∈ acc
          · simp [ha, hax]
          · simp [ha, hax]

/-- C5: validateRoots maps a null input to the empty sequence, and on a list of roots it
returns exactly the first-occurrence deduplication of the canonical string forms, which
in particular has no duplicates and is a sublist (hence order-preserving) of the mapped
input. -/
theorem validateRoots_dedup_first_occurrence :
    validateRoots none = [] ∧
    ∀ R : List Root,
      validateRoots (some R) = specDedup (R.map toStringSkipEncoding) ∧
      (validateRoots (some R)).Nodup ∧
      (validateRoots (some R)).Sublist (R.map toStringSkipEncoding) := by
  refine ⟨rfl, fun R => ⟨?_, ?_, ?_⟩⟩
  · rw [specDedup, foldl_dedupStep]
    simp [validateRoots]
  · exact distinct_nodup _
  · exact distinct_sublist _

/-- C4 counterexample: the canonicalization used at the removal-matching site (toString
with its default argument, which percent-encodes) and the one used by the Validator
(toString with encoding skipped) are not the same function: they disagree on a root whose
path contains a space. -/
theorem removal_and_validation_canonical_forms_differ :
    toStringEncoded ⟨"file", "/a b"⟩ = "file:///a%20b" ∧
    toStringSkipEncoding ⟨"file", "/a b"⟩ = "file:///a b" ∧
    (toStringEncoded ⟨"file", "/a b"⟩ == toStringSkipEncoding ⟨"file", "/a b"⟩) = false := by
  refine ⟨by decide, rfl, by decide⟩

/-- C4 as amended: removeRoots filters the current roots, excluding every root whose
encoded string form (toString with its default argument) appears among the encoded string
forms of rootsToRemove; when a configuration exists, the filtered set validates to a
non-empty set and the set changed, the writer is invoked once with the folders field
replaced by that desired set. The matching canonicalization is the encoded form, not the
skip-encoding form the Validator uses. -/
theorem removeRoots_filter_encoded_write (ctx : WorkspaceContext) (rootsToRemove : List Root)
    (cfg : String) (hcfg : ctx.configuration = some cfg)
    (hchanged : ctx.roots.map fsPath ≠
      validateRoots (some (ctx.roots.filter (fun root =>
        !((rootsToRemove.map (fun root => toStringEncoded root)).contains
          (toStringEncoded root))))))
    (hne : validateRoots (some (ctx.roots.filter (fun root =>
        !((rootsToRemove.map (fun root => toStringEncoded root)).contains
          (toStringEncoded root))))) ≠ []) :
    (removeRoots ctx (some rootsToRemove)).events =
      [Event.write cfg "folders"
        (JsonValue.arr (validateRoots (some (ctx.roots.filter (fun root =>
          !((rootsToRemove.map (fun root => toStringEncoded root)).contains
            (toStringEncoded root))))))) true] := by
  have heqn : ¬ (equalsArrays (ctx.roots.map (fun root => fsPath root))
      (validateRoots (some (ctx.roots.filter (fun root =>
        !((rootsToRemove.map (fun root => toStringEncoded root)).contains
          (toStringEncoded root)))))) = true) :=
    fun hb => hchanged (equalsArrays_eq_true.mp hb)
  simp only [removeRoots, supportedRefIsTruthy, doSetRoots]
  rw [if_neg (by decide)]
  rw [if_neg heqn]
  rw [if_pos (fun h0 => hne (List.length_eq_zero.mp h0))]
  rw [hcfg]

/-- C4 witness: current roots /a, /b and /c with configuration /ws; removing /b writes the
folders field with the canonical forms of /a and /c in order. -/
theorem removeRoots_filter_encoded_write_witness :
    (removeRoots ctxThreeRoots (some [⟨"file", "/b"⟩])).events =
      [Event.write "/ws" "folders"
        (JsonValue.arr (validateRoots (some (ctxThreeRoots.roots.filter (fun root =>
          !(([⟨"file", "/b"⟩].map (fun root => toStringEncoded root)).contains
            (toStringEncoded root))))))) true] :=
  removeRoots_filter_encoded_write ctxThreeRoots [⟨"file", "/b"⟩] "/ws" rfl
    (by decide) (by decide)

/-- C6 counterexample: a reconciliation with a non-empty validated desired set and no
associated configuration that does not take the create-new-workspace path. The current
root has the path attribute file:///b, whose fsPath form textually equals the canonical
string form of the desired root with path /b, so the no-change check fires first and the
operation resolves with no collaborator call at all. -/
theorem createPath_condition_not_sufficient :
    validateRoots (some [⟨"file", "/b"⟩]) = ["file:///b"] ∧
    ctxOddRoot.configuration = none ∧
    doSetRoots ctxOddRoot [⟨"file", "/b"⟩] = ⟨[], PromiseResult.resolved⟩ := by
  refine ⟨by decide, rfl, by decide⟩

/-- C6 as amended: the create-new-workspace path (the branch that prompts, materializes
and opens a window) is taken if and only if the validated desired set differs from the
current root paths, is non-empty, and no configuration is associated with the context;
and a whole-document write (a materialization) can only happen inside that path. -/
theorem createPath_iff_changed_nonempty_noConfig (ctx : WorkspaceContext)
    (newRoots : List Root) :
    ((doSetRoots ctx newRoots).events.any isChoose = true ↔
      (ctx.roots.map fsPath ≠ validateRoots (some newRoots) ∧
       validateRoots (some newRoots) ≠ [] ∧ ctx.configuration = none)) ∧
    ((doSetRoots ctx newRoots).events.any isWholeFileWrite = true →
      (doSetRoots ctx newRoots).events.any isChoose = true) := by
  by_cases heq : ctx.roots.map (fun root => fsPath root) = validateRoots (some newRoots)
  · have hout : doSetRoots ctx newRoots = ⟨[], PromiseResult.resolved⟩ := by
      simp only [doSetRoots]
      rw [if_pos (equalsArrays_eq_true.mpr heq)]
    rw [hout]
    refine ⟨⟨fun h => absurd h (by decide), fun hc => absurd heq hc.1⟩, fun h => h⟩
  · by_cases hlen : validateRoots (some newRoots) = []
    · have hout : doSetRoots ctx newRoots = ⟨[], PromiseResult.resolved⟩ := by
        simp only [doSetRoots]
        rw [if_neg (fun hb => heq (equalsArrays_eq_true.mp hb))]
        rw [if_neg (by simp [hlen])]
      rw [hout]
      refine ⟨⟨fun h => absurd h (by decide), fun hc => absurd hlen hc.2.1⟩, fun h => h⟩
    · cases hcfg : ctx.configuration with
      | some cfg =>
          have hout : doSetRoots ctx newRoots =
              ⟨[Event.write cfg "folders" (JsonValue.arr (validateRoots (some newRoots))) true],
               if ctx.writeOk then PromiseResult.resolved else PromiseResult.rejected⟩ := by
            simp only [doSetRoots]
            rw [if_neg (fun hb => heq (equalsArrays_eq_true.mp hb))]
            rw [if_pos (fun h0 => hlen (List.length_eq_zero.mp h0))]
            rw [hcfg]
          rw [hout]
          constructor
          · constructor
            · intro h
              simp [isChoose] at h
            · rintro ⟨h1, h2, h3⟩
              simp at h3
          · intro h
            simp [isWholeFileWrite] at h
      | none =>
          have hout : doSetRoots ctx newRoots =
              createWorkspace ctx (validateRoots (some newRoots)) := by
            simp only [doSetRoots]
            rw [if_neg (fun hb => heq (equalsArrays_eq_true.mp hb))]
            rw [if_pos (fun h0 => hlen (List.length_eq_zero.mp h0))]
            rw [hcfg]
          have hany : (createWorkspace ctx
              (validateRoots (some newRoots))).events.any isChoose = true := by
            cases hp : ctx.promptOk <;> cases hwk : ctx.writeOk <;>
              simp [createWorkspace, _doCreateWorkspace, hp, hwk, isChoose]
          rw [hout]
          exact ⟨⟨fun _ => ⟨heq, hlen, rfl⟩, fun _ => hany⟩, fun _ => hany⟩

/-- C6 witness: with no current roots and no configuration, adding a root enters the
create path (forward use of the equivalence), and a run whose trace contains a
whole-document write also contains the prompt call. -/
theorem createPath_iff_changed_nonempty_noConfig_witness :
    (doSetRoots ctxEmpty [⟨"file", "/a"⟩]).events.any isChoose = true ∧
    (doSetRoots ctxEmpty [⟨"file", "/b"⟩]).events.any isChoose = true :=
  ⟨(createPath_iff_changed_nonempty_noConfig ctxEmpty [⟨"file", "/a"⟩]).1.mpr
      ⟨by decide, by decide, rfl⟩,
   (createPath_iff_changed_nonempty_noConfig ctxEmpty [⟨"file", "/b"⟩]).2 (by decide)⟩

/-- C8 counterexample: the whole-document payload written when materializing has the
top-level fields ID and folders, with ID in upper case; there is no field named id, while
the claim and the persisted file layout of the spec name the field id. -/
theorem createdPayload_uses_uppercase_ID :
    ((_doCreateWorkspace ctxEmpty ["file:///a"]).1.events.map writtenKeys) =
      [["ID", "folders"]] ∧
    (["ID", "folders"].contains "id") = false := by
  refine ⟨rfl, by decide⟩

/-- C8 as amended: materialization uses the identifier obtained from the uuid generator,
derives the target path by joining the settings home with the identifier followed by the
extension .vscode, writes the whole document (empty key, create-or-overwrite) whose
payload object has the top-level fields ID (upper case, the generated identifier) and
folders, and returns that path as the new configuration reference on success. -/
theorem doCreateWorkspace_write_and_path (ctx : WorkspaceContext) (folders : List String)
    (hw : ctx.writeOk = true) :
    _doCreateWorkspace ctx folders =
      (⟨[Event.write (pathJoin ctx.appSettingsHome (ctx.freshId ++ ".vscode")) ""
          (JsonValue.obj [("ID", JsonPrim.str ctx.freshId),
            ("folders", JsonPrim.strList folders)]) true],
        PromiseResult.resolved⟩,
       some (pathJoin ctx.appSettingsHome (ctx.freshId ++ ".vscode"))) := by
  simp only [_doCreateWorkspace]
  rw [if_pos hw]

/-- C8 witness: materialization at a concrete environment writes the payload and returns
the derived path. -/
theorem doCreateWorkspace_write_and_path_witness :
    _doCreateWorkspace ctxEmpty ["file:///a"] =
      (⟨[Event.write (pathJoin ctxEmpty.appSettingsHome (ctxEmpty.freshId ++ ".vscode")) ""
          (JsonValue.obj [("ID", JsonPrim.str ctxEmpty.freshId),
            ("folders", JsonPrim.strList ["file:///a"])]) true],
        PromiseResult.resolved⟩,
       some (pathJoin ctxEmpty.appSettingsHome (ctxEmpty.freshId ++ ".vscode"))) :=
  doCreateWorkspace_write_and_path ctxEmpty ["file:///a"] rfl
